import Mathlib

/-!
# Verification of the ponghub webhook notification channel

Shallow embedding of `internal/notifier/channels/webhook.go` from the
`IIXINGCHEN/ponghub` repository, together with proofs about the payload
construction precedence, custom-template rendering, authentication
headers, retry behaviour and configuration immutability of the
`WebhookNotifier.Send` path.

Modelling conventions:
* Go `map[string]string` values reachable from the configuration
  (`Headers`, `CustomPayload.Fields`) are reference cells in an explicit
  store (`Store`), because Go maps have reference semantics and the
  frame claim about `Send` is precisely about writes through such
  references.  Maps created fresh inside a call (`data`, `enhancedData`,
  `result`, the local `headers` copy) are modelled at value level once
  their freshness is made explicit by an allocation in the store where
  aliasing matters (the `headers` map).
* `map[string]interface{}` values are association lists of `GoValue`
  (`VMap`); a Go map literal with distinct keys is written as the
  corresponding list, and `mapSet` models `m[k] = v` (replace or
  append).  Go map iteration order is unspecified; every fold below is
  over maps whose keys are distinct, so the resulting map contents do
  not depend on the order and we iterate in list order.
* Calls into the Go standard library that the claims quantify over are
  parameters: `render` stands for `text/template` parse-and-execute
  (returning the wrapped error message on failure), `junm` for
  `encoding/json.Unmarshal` into `interface{}`, `b64` for
  `base64.StdEncoding.EncodeToString`, `getenv` for `os.Getenv`.
* `time.Now().Format(time.RFC3339)` and `time.Now().Unix()` are the
  parameters `now` and `nowUnix`: the wall clock is external input.
-/

namespace Ponghub

/-- Go `interface{}` values as they occur in the webhook payloads:
strings, the untyped `nil`, integers, booleans, JSON-style objects
(`map[string]interface{}`) and arrays. -/
inductive GoValue where
  | str (s : String)
  | nilv
  | int (n : Int)
  | bool (b : Bool)
  | obj (kvs : List (String × GoValue))
  | arr (vs : List GoValue)

/-- `map[string]interface{}` as an association list with distinct keys. -/
abbrev VMap := List (String × GoValue)

/-- `map[string]string` as an association list with distinct keys. -/
abbrev SMap := List (String × String)

/-- Go map read `m[k]` on a `map[string]interface{}`: the zero value of
`interface{}` is `nil` when the key is absent. -/
def mapGet (m : VMap) (k : String) : GoValue :=
  match m with
  | [] => .nilv
  | kv :: rest => if kv.1 = k then kv.2 else mapGet rest k

/-- Go map write `m[k] = v` on a `map[string]interface{}`: replaces the
binding if the key is present, appends otherwise. -/
def mapSet (m : VMap) (k : String) (v : GoValue) : VMap :=
  match m with
  | [] => [(k, v)]
  | kv :: rest => if kv.1 = k then (k, v) :: rest else kv :: mapSet rest k v

/-- Key-membership test on a `map[string]interface{}`. -/
def mapHas (m : VMap) (k : String) : Bool :=
  match m with
  | [] => false
  | kv :: rest => kv.1 == k || mapHas rest k

/-- Go map read on a `map[string]string`, distinguishing absence. -/
def smapGet (m : SMap) (k : String) : Option String :=
  match m with
  | [] => none
  | kv :: rest => if kv.1 = k then some kv.2 else smapGet rest k

/-- Go map write `m[k] = v` on a `map[string]string`. -/
def smapSet (m : SMap) (k : String) (v : String) : SMap :=
  match m with
  | [] => [(k, v)]
  | kv :: rest => if kv.1 = k then (k, v) :: rest else kv :: smapSet rest k v

/-- All keys of a `map[string]interface{}` are distinct (an invariant of
every map a Go program can build, stated here for association lists). -/
def mapKeysOk : VMap → Bool
  | [] => true
  | kv :: rest => !mapHas rest kv.1 && mapKeysOk rest

/-- Key-membership test on a `map[string]string`. -/
def smapHas (m : SMap) (k : String) : Bool :=
  match m with
  | [] => false
  | kv :: rest => kv.1 == k || smapHas rest k

/-- All keys of a `map[string]string` are distinct. -/
def smapKeysOk : SMap → Bool
  | [] => true
  | kv :: rest => !smapHas rest kv.1 && smapKeysOk rest

/-- Does the character list start with the given pattern? -/
def charsStartWith : List Char → List Char → Bool
  | _, [] => true
  | [], _ :: _ => false
  | c :: cs, d :: ds => c == d && charsStartWith cs ds

/-- Does the character list contain the pattern as a contiguous run? -/
def charsContain (s sub : List Char) : Bool :=
  match s with
  | [] => charsStartWith [] sub
  | _ :: rest => charsStartWith s sub || charsContain rest sub

/-- `strings.Contains(s, sub)` (Go): substring test on the underlying
character sequences. -/
def strContains (s sub : String) : Bool :=
  charsContain s.data sub.data

/-- ASCII upper-casing of one character (the configured method names and
format names this code upper/lower-cases are ASCII). -/
def goUpperChar (c : Char) : Char :=
  if 97 ≤ c.toNat ∧ c.toNat ≤ 122 then Char.ofNat (c.toNat - 32) else c

/-- `strings.ToUpper` (Go) on ASCII strings. -/
def goToUpper (s : String) : String := String.mk (s.data.map goUpperChar)

/-- ASCII lower-casing of one character. -/
def goLowerChar (c : Char) : Char :=
  if 65 ≤ c.toNat ∧ c.toNat ≤ 90 then Char.ofNat (c.toNat + 32) else c

/-- `strings.ToLower` (Go) on ASCII strings. -/
def goToLower (s : String) : String := String.mk (s.data.map goLowerChar)

/-- The store of `map[string]string` reference cells; a reference is an
index, allocation appends. -/
abbrev Store := List SMap

/-- Dereference a `map[string]string` reference. -/
def readRef (σ : Store) (r : Nat) : SMap := σ.getD r []

/-- Write through a `map[string]string` reference. -/
def writeRef (σ : Store) (r : Nat) (m : SMap) : Store := σ.set r m

/-- `make(map[string]string)` / a map literal: allocate a fresh cell. -/
def alloc (σ : Store) (m : SMap) : Store × Nat := (σ ++ [m], σ.length)

/-- `configure.CustomPayloadConfig` (package
`internal/types/structures/configure`; the struct declaration is not in
the provided sources, its fields are read off from every use in
`webhook.go` and `webhook_test.go`).  `Fields` is a `map[string]string`,
hence a store reference; `FieldsSome` is `Fields != nil`. -/
structure CustomPayloadConfig where
  Template : String := ""
  ContentType : String := ""
  FieldsSome : Bool := false
  FieldsRef : Nat := 0
  TitleField : String := ""
  IncludeTitle : Bool := false
  MessageField : String := ""
  IncludeMessage : Bool := false

/-- `configure.WebhookConfig` (same provenance as
`CustomPayloadConfig`).  `Headers` is a `map[string]string`, hence a
store reference. -/
structure WebhookConfig where
  URL : String := ""
  Method : String := ""
  HeadersRef : Nat := 0
  AuthType : String := ""
  AuthToken : String := ""
  AuthUsername : String := ""
  AuthPassword : String := ""
  AuthHeader : String := ""
  CustomPayload : Option CustomPayloadConfig := none
  Template : String := ""
  Format : String := ""
  ContentType : String := ""
  Retries : Int := 0
  Timeout : Int := 0
  SkipTLSVerify : Bool := false

/-- JSON string escaping on a character list: backslash and double
quote are escaped (control characters do not occur in the modelled
payloads). -/
def escapeJsonChars : List Char → List Char
  | [] => []
  | c :: cs =>
    if c = '\\' then '\\' :: '\\' :: escapeJsonChars cs
    else if c = '\"' then '\\' :: '\"' :: escapeJsonChars cs
    else c :: escapeJsonChars cs

/-- JSON string escaping as performed by `encoding/json.Marshal` on the
characters occurring in this development. -/
def escapeJson (s : String) : String :=
  String.mk (escapeJsonChars s.data)

mutual

/-- `encoding/json.Marshal` restricted to `GoValue` (always succeeds on
these values).  Object keys are emitted in list order; the modelled
objects have distinct keys, so the object denoted is the one Go sends
(Go orders keys alphabetically, which agrees with every concrete object
compared byte-for-byte below). -/
def jsonMarshal : GoValue → String
  | .str s => "\"" ++ escapeJson s ++ "\""
  | .nilv => "null"
  | .int n => toString n
  | .bool b => if b then "true" else "false"
  | .obj kvs => "\x7b" ++ jsonMarshalObj kvs ++ "\x7d"
  | .arr vs => "[" ++ jsonMarshalArr vs ++ "]"

/-- Comma-separated members of a JSON object. -/
def jsonMarshalObj : List (String × GoValue) → String
  | [] => ""
  | [(k, v)] => "\"" ++ escapeJson k ++ "\":" ++ jsonMarshal v
  | (k, v) :: kv :: rest =>
      "\"" ++ escapeJson k ++ "\":" ++ jsonMarshal v ++ ","
        ++ jsonMarshalObj (kv :: rest)

/-- Comma-separated elements of a JSON array. -/
def jsonMarshalArr : List GoValue → String
  | [] => ""
  | [v] => jsonMarshal v
  | v :: w :: rest => jsonMarshal v ++ "," ++ jsonMarshalArr (w :: rest)

end

/-- `fmt.Sprintf("%s", v)` for the values occurring in the format
builders (always strings in the data maps built by `buildPayload`). -/
def goStr : GoValue → String
  | .str s => s
  | .nilv => "<nil>"
  | .int n => toString n
  | .bool b => if b then "true" else "false"
  | .obj _ => ""
  | .arr _ => ""

/-- The `data` map built at the top of `buildPayload` (webhook.go:67-74):
title/message under both lowercase and capitalised keys, the RFC3339
timestamp string `now`, and the fixed service name. -/
def payloadData (title message now : String) : VMap :=
  [("title", .str title), ("message", .str message),
   ("Title", .str title), ("Message", .str message),
   ("timestamp", .str now), ("service", .str "ponghub")]

/-- `buildTemplatePayloadWithData` (webhook.go:170-205): render the
template over `data`; if the output unmarshals as JSON return the parsed
value, defaulting the content type to `application/json`, otherwise
return the raw text, defaulting the content type to `text/plain`. -/
def buildTemplatePayloadWithData (render : String → VMap → Except String String)
    (junm : String → Option GoValue) (templateStr : String) (data : VMap)
    (contentType : String) : Except String (GoValue × String) :=
  match render templateStr data with
  | .error e => .error e
  | .ok out =>
    match junm out with
    | some jsonData =>
        .ok (jsonData, if contentType ≠ "" then contentType else "application/json")
    | none =>
        .ok (.str out, if contentType ≠ "" then contentType else "text/plain")

/-- `buildTemplatePayload` (webhook.go:208-239): like
`buildTemplatePayloadWithData` over `w.config.Template`, except that the
JSON branch always reports `application/json` and only the plain-text
branch consults `w.config.ContentType`. -/
def buildTemplatePayload (render : String → VMap → Except String String)
    (junm : String → Option GoValue) (cfg : WebhookConfig) (data : VMap) :
    Except String (GoValue × String) :=
  match render cfg.Template data with
  | .error e => .error e
  | .ok out =>
    match junm out with
    | some jsonData => .ok (jsonData, "application/json")
    | none =>
        .ok (.str out, if cfg.ContentType ≠ "" then cfg.ContentType else "text/plain")

/-- `buildSlackFormat` (webhook.go:258-276). -/
def buildSlackFormat (data : VMap) (nowUnix : Int) : GoValue :=
  .obj [("text", .str ("*" ++ goStr (mapGet data "title") ++ "*")),
        ("attachments", .arr [.obj
          [("color", .str "danger"),
           ("text", mapGet data "message"),
           ("timestamp", .int nowUnix),
           ("fields", .arr [.obj
             [("title", .str "Service"),
              ("value", mapGet data "service"),
              ("short", .bool true)]])]])]

/-- `buildDiscordFormat` (webhook.go:279-297). -/
def buildDiscordFormat (data : VMap) : GoValue :=
  .obj [("embeds", .arr [.obj
          [("title", mapGet data "title"),
           ("description", mapGet data "message"),
           ("color", .int 0xFF0000),
           ("timestamp", mapGet data "timestamp"),
           ("fields", .arr [.obj
             [("name", .str "Service"),
              ("value", mapGet data "service"),
              ("inline", .bool true)]])]])]

/-- `buildTeamsFormat` (webhook.go:302-325). -/
def buildTeamsFormat (data : VMap) : GoValue :=
  .obj [("@type", .str "MessageCard"),
        ("@context", .str "http://schema.org/extensions"),
        ("themeColor", .str "FF0000"),
        ("summary", mapGet data "title"),
        ("sections", .arr [.obj
          [("activityTitle", mapGet data "title"),
           ("activityText", mapGet data "message"),
           ("facts", .arr
             [.obj [("name", .str "Service"), ("value", mapGet data "service")],
              .obj [("name", .str "Timestamp"), ("value", mapGet data "timestamp")]])]])]

/-- `buildMattermostFormat` (webhook.go:328-333). -/
def buildMattermostFormat (data : VMap) : GoValue :=
  .obj [("text", .str ("## " ++ goStr (mapGet data "title") ++ "\n\n"
        ++ goStr (mapGet data "message") ++ "\n\n**Service:** "
        ++ goStr (mapGet data "service") ++ "\n**Time:** "
        ++ goStr (mapGet data "timestamp")))]

/-- `buildFormattedPayload` (webhook.go:242-255): dispatch on the
lower-cased preset format name. -/
def buildFormattedPayload (cfg : WebhookConfig) (data : VMap) (nowUnix : Int) :
    GoValue × String :=
  match goToLower cfg.Format with
  | "slack" => (buildSlackFormat data nowUnix, "application/json")
  | "discord" => (buildDiscordFormat data, "application/json")
  | "teams" => (buildTeamsFormat data, "application/json")
  | "mattermost" => (buildMattermostFormat data, "application/json")
  | _ => (.obj data, "application/json")

/-- The per-key condition of the loop at webhook.go:140-147 that copies
further `enhancedData` entries into the structured-template result: the
key is none of the reserved ones and its quoted name occurs verbatim in
the template text. -/
def customFieldCond (tpl k : String) : Bool :=
  k != "Title" && k != "Message" && k != "title" && k != "message" &&
  k != "timestamp" && k != "service" && k != "environment" &&
  strContains tpl ("\"" ++ k ++ "\"")

/-- webhook.go:100-105: copy the original `data` into a fresh map. -/
def enhancedCopy (data : VMap) : VMap :=
  data.foldl (fun m kv => mapSet m kv.1 kv.2) []

/-- webhook.go:107-112: merge the declared custom `Fields` (when the map
is non-nil) into the enhanced data. -/
def enhancedFields (σ : Store) (cp : CustomPayloadConfig) (e : VMap) : VMap :=
  if cp.FieldsSome then
    (readRef σ cp.FieldsRef).foldl (fun m kv => mapSet m kv.1 (.str kv.2)) e
  else e

/-- webhook.go:115-117: the optional title field-name mapping. -/
def enhancedTitleMap (cp : CustomPayloadConfig) (data e : VMap) : VMap :=
  if cp.TitleField ≠ "" ∧ cp.IncludeTitle then
    mapSet e cp.TitleField (mapGet data "title")
  else e

/-- webhook.go:118-120: the optional message field-name mapping. -/
def enhancedMessageMap (cp : CustomPayloadConfig) (data e : VMap) : VMap :=
  if cp.MessageField ≠ "" ∧ cp.IncludeMessage then
    mapSet e cp.MessageField (mapGet data "message")
  else e

/-- The `enhancedData` map of `buildCustomPayload` (webhook.go:99-120):
the original `data` copied into a fresh map, then the declared custom
`Fields` merged in, then the optional title/message field-name
mappings. -/
def enhancedDataOf (σ : Store) (cp : CustomPayloadConfig) (data : VMap) : VMap :=
  enhancedMessageMap cp data
    (enhancedTitleMap cp data (enhancedFields σ cp (enhancedCopy data)))

/-- The `result` map of the structured-template shortcut of
`buildCustomPayload` (webhook.go:125-147): fixed `alert`/`details`
entries, `env`/`svc` when their quoted names occur in the template, and
every other `enhancedData` entry whose key passes `customFieldCond`. -/
def structuredCustomResult (tpl : String) (enhancedData : VMap) : VMap :=
  let result : VMap :=
    [("alert", mapGet enhancedData "Title"),
     ("details", mapGet enhancedData "Message")]
  let result :=
    if strContains tpl "\"env\"" then
      mapSet result "env" (mapGet enhancedData "environment")
    else result
  let result :=
    if strContains tpl "\"svc\"" then
      mapSet result "svc" (mapGet enhancedData "service")
    else result
  enhancedData.foldl
    (fun r kv => if customFieldCond tpl kv.1 then mapSet r kv.1 kv.2 else r)
    result

/-- `buildCustomPayload` (webhook.go:96-167).  `σ` is the store holding
the `Fields` map referenced by the configuration; it is only read. -/
def buildCustomPayload (render : String → VMap → Except String String)
    (junm : String → Option GoValue) (σ : Store) (cp : CustomPayloadConfig)
    (data : VMap) : Except String (GoValue × String) :=
  let enhancedData := enhancedDataOf σ cp data
  if cp.Template ≠ "" then
    if strContains cp.Template "\"alert\"" && strContains cp.Template "\"details\"" then
      let contentType := if cp.ContentType ≠ "" then cp.ContentType else "application/json"
      .ok (.obj (structuredCustomResult cp.Template enhancedData), contentType)
    else
      buildTemplatePayloadWithData render junm cp.Template enhancedData cp.ContentType
  else
    let contentType := if cp.ContentType ≠ "" then cp.ContentType else "application/json"
    .ok (.obj enhancedData, contentType)

/-- `buildPayload` (webhook.go:66-93): construct the payload and content
type, trying the custom-payload configuration, then the raw template,
then the named preset format, then the default JSON object. -/
def buildPayload (render : String → VMap → Except String String)
    (junm : String → Option GoValue) (σ : Store) (cfg : WebhookConfig)
    (title message now : String) (nowUnix : Int) : Except String (GoValue × String) :=
  let data := payloadData title message now
  match cfg.CustomPayload with
  | some cp => buildCustomPayload render junm σ cp data
  | none =>
    if cfg.Template ≠ "" then
      buildTemplatePayload render junm cfg data
    else if cfg.Format ≠ "" then
      .ok (buildFormattedPayload cfg data nowUnix)
    else
      .ok (.obj data, "application/json")

/-- `setAuthentication` (webhook.go:336-356): dispatch on the
lower-cased auth type and write the corresponding header into the map
passed in (the caller's local `headers` copy).  `b64` stands for
`base64.StdEncoding.EncodeToString`. -/
def setAuthentication (b64 : String → String) (cfg : WebhookConfig)
    (headers : SMap) : SMap :=
  if goToLower cfg.AuthType = "bearer" then
    if cfg.AuthToken ≠ "" then
      smapSet headers "Authorization" ("Bearer " ++ cfg.AuthToken)
    else headers
  else if goToLower cfg.AuthType = "basic" then
    if cfg.AuthUsername ≠ "" ∧ cfg.AuthPassword ≠ "" then
      smapSet headers "Authorization"
        ("Basic " ++ b64 (cfg.AuthUsername ++ ":" ++ cfg.AuthPassword))
    else headers
  else if goToLower cfg.AuthType = "apikey" then
    if cfg.AuthToken ≠ "" then
      if cfg.AuthHeader ≠ "" then smapSet headers cfg.AuthHeader cfg.AuthToken
      else smapSet headers "X-API-Key" cfg.AuthToken
    else headers
  else headers

/-- One HTTP attempt as observed by the receiving server: the request
actually put on the wire. -/
structure Attempt where
  url : String
  method : String
  body : String
  contentType : String
  headers : SMap
  timeout : Nat
deriving DecidableEq, Inhabited

/-- `WebhookError` (webhook.go:394-399). -/
structure WebhookError where
  StatusCode : Nat
  Body : String
  Retryable : Bool
  Message : String
deriving DecidableEq

/-- Modelled from the spec: the failure-class classification carried by
`WebhookError.Retryable` lives in `sendHTTPRequestWithCustomBody`, which
is not under the provided sources.  Per the spec's error taxonomy
(`TransportError`/server-class retryable, `ProtocolError` non-retryable
4xx), a status is retryable exactly when it is a 5xx-class response. -/
def isRetryableStatus (st : Nat) : Bool :=
  decide (500 ≤ st)

/-- Modelled from the spec: the attempt loop of
`sendHTTPRequestWithCustomBody` (not under the provided sources).
`responses i` is the status/body the server answers to attempt `i`.
A 2xx response succeeds immediately; otherwise the request is retried
while budget remains, unchanged between attempts; exhausting the budget
surfaces the last status and body as a `WebhookError` carrying the
retryability of the failure class.  Returns the trace of attempts that
reached the wire together with the outcome. -/
def httpAttemptLoop (responses : Nat → Nat × String) (req : Attempt) :
    Nat → Nat → List Attempt × Except WebhookError Unit
  | attempt, 0 =>
    let st := (responses attempt).1
    if 200 ≤ st ∧ st < 300 then ([req], .ok ())
    else
      ([req], .error
        { StatusCode := st, Body := (responses attempt).2,
          Retryable := isRetryableStatus st,
          Message := "webhook request failed with status " ++ toString st })
  | attempt, r + 1 =>
    let st := (responses attempt).1
    if 200 ≤ st ∧ st < 300 then ([req], .ok ())
    else
      let rest := httpAttemptLoop responses req (attempt + 1) r
      (req :: rest.1, rest.2)

/-- Modelled from the spec: `sendHTTPRequestWithCustomBody` (not under
the provided sources) issues the already-serialized request up to
`maxRetries` additional times after the first attempt. -/
def sendHTTPRequestWithCustomBody (responses : Nat → Nat × String)
    (url method body contentType : String) (headers : SMap)
    (maxRetries timeout : Nat) : List Attempt × Except WebhookError Unit :=
  httpAttemptLoop responses
    { url := url, method := method, body := body, contentType := contentType,
      headers := headers, timeout := timeout } 0 maxRetries

/-- The body serialization step of `sendWithRetry` (webhook.go:376-388):
a string payload is sent verbatim, anything else is JSON-marshalled
(which cannot fail on `GoValue`). -/
def serializeBody : GoValue → String
  | .str s => s
  | v => jsonMarshal v

/-- `sendWithRetry` (webhook.go:364-391): clamp the retry count and
timeout, serialize the payload once, and hand the fixed request to the
HTTP layer. -/
def sendWithRetry (responses : Nat → Nat × String) (cfg : WebhookConfig)
    (url method : String) (payload : GoValue) (contentType : String)
    (headers : SMap) : List Attempt × Except WebhookError Unit :=
  let maxRetries : Nat := if cfg.Retries > 0 then cfg.Retries.toNat else 0
  let timeout : Nat := if cfg.Timeout > 0 then cfg.Timeout.toNat else 30
  let body := serializeBody payload
  sendHTTPRequestWithCustomBody responses url method body contentType headers
    maxRetries timeout

/-- `Send` (webhook.go:28-63): resolve the URL (falling back to the
`WEBHOOK_URL` environment value), build the payload, pick the method,
copy the configured headers into a freshly allocated map, inject
authentication into that copy, and dispatch with retries.  Returns the
store after the call together with either an early configuration error
or the attempt trace and HTTP outcome. -/
def Send (render : String → VMap → Except String String)
    (junm : String → Option GoValue) (b64 : String → String)
    (getenv : String → String) (responses : Nat → Nat × String)
    (σ : Store) (cfg : WebhookConfig) (title message now : String)
    (nowUnix : Int) :
    Store × Except String (List Attempt × Except WebhookError Unit) :=
  let url := cfg.URL
  let url := if url = "" then getenv "WEBHOOK_URL" else url
  if url = "" then (σ, .error "webhook URL not configured")
  else
    match buildPayload render junm σ cfg title message now nowUnix with
    | .error e => (σ, .error ("failed to build webhook payload: " ++ e))
    | .ok (payload, contentType) =>
      let method := if cfg.Method ≠ "" then goToUpper cfg.Method else "POST"
      let hfresh := alloc σ []
      let σ1 := hfresh.1
      let href := hfresh.2
      let σ2 := writeRef σ1 href
        ((readRef σ cfg.HeadersRef).foldl (fun h kv => smapSet h kv.1 kv.2)
          (readRef σ1 href))
      let σ3 :=
        if cfg.AuthType ≠ "" then
          writeRef σ2 href (setAuthentication b64 cfg (readRef σ2 href))
        else σ2
      (σ3, .ok (sendWithRetry responses cfg url method payload contentType
        (readRef σ3 href)))

/-- The attempts that reached the wire during a `Send` call (empty when
`Send` failed before dispatching). -/
def sentAttempts
    (out : Store × Except String (List Attempt × Except WebhookError Unit)) :
    List Attempt :=
  match out.2 with
  | .ok p => p.1
  | .error _ => []

/-- A rendering function for concrete instances in which the renderer is
never reached. -/
def renderUnused : String → VMap → Except String String :=
  fun _ _ => .error "renderer invoked"

/-- A renderer that echoes the template text, for concrete instances of
the post-rendering branches. -/
def renderEcho : String → VMap → Except String String :=
  fun t _ => .ok t

/-- A JSON unmarshaller that never parses. -/
def junmFail : String → Option GoValue := fun _ => none

/-- A JSON unmarshaller that parses everything as the empty object. -/
def junmEmptyObj : String → Option GoValue := fun _ => some (.obj [])

/-- Identity stand-in for base64 encoding in concrete instances. -/
def b64Id : String → String := fun s => s

/-- An environment with no variables set. -/
def getenvEmpty : String → String := fun _ => ""

/-- A server that answers 200 "OK" to every attempt. -/
def responses200 : Nat → Nat × String := fun _ => (200, "OK")

/-- The custom template of the specification's rendering test:
the text between the braces is `"alert":"` then the action `.Title`,
then `","details":"`, then the action `.Message`, then `"`. -/
def alertDetailsTemplate : String :=
  "\x7b\"alert\":\"\x7b\x7b.Title\x7d\x7d\",\"details\":\"\x7b\x7b.Message\x7d\x7d\"\x7d"

/-- The same template extended with a quoted `foo` member rendered from
the declared field `foo`. -/
def alertDetailsFooTemplate : String :=
  "\x7b\"alert\":\"\x7b\x7b.Title\x7d\x7d\",\"details\":\"\x7b\x7b.Message\x7d\x7d\",\"foo\":\"\x7b\x7b.foo\x7d\x7d\"\x7d"

/-! ## Association-list map lemmas -/

theorem mapGet_mapSet_self (m : VMap) (k : String) (v : GoValue) :
    mapGet (mapSet m k v) k = v := by
  induction m with
  | nil => simp [mapSet, mapGet]
  | cons kv rest ih =>
    by_cases h : kv.1 = k
    · simp [mapSet, h, mapGet]
    · simp [mapSet, h, mapGet, ih]

theorem mapGet_mapSet_ne (m : VMap) (k' k : String) (v : GoValue)
    (h : k' ≠ k) : mapGet (mapSet m k' v) k = mapGet m k := by
  induction m with
  | nil => simp [mapSet, mapGet, h]
  | cons kv rest ih =>
    by_cases hk : kv.1 = k'
    · simp [mapSet, hk, mapGet, h, ih, Ne.symm h]
    · by_cases hk2 : kv.1 = k
      · simp [mapSet, hk, mapGet, hk2, Ne.symm h]
      · simp [mapSet, hk, mapGet, hk2, ih]

theorem mapHas_mapSet_ne (m : VMap) (k' k : String) (v : GoValue)
    (h : k' ≠ k) : mapHas (mapSet m k' v) k = mapHas m k := by
  induction m with
  | nil => simp [mapSet, mapHas, h]
  | cons kv rest ih =>
    by_cases hk : kv.1 = k'
    · simp [mapSet, hk, mapHas, h, ih]
    · simp [mapSet, hk, mapHas, ih]

theorem mapHas_of_mapGet_str (m : VMap) (k : String) (s : String)
    (h : mapGet m k = .str s) : mapHas m k = true := by
  induction m with
  | nil => simp [mapGet] at h
  | cons kv rest ih =>
    by_cases hk : kv.1 = k
    · simp [mapHas, hk]
    · simp [mapGet, hk] at h
      simp [mapHas, hk, ih h]

theorem mapHas_mapSet (m : VMap) (k : String) (v : GoValue) (k' : String) :
    mapHas (mapSet m k v) k' = (k == k' || mapHas m k') := by
  induction m with
  | nil => by_cases hk2 : k = k' <;> simp [mapSet, mapHas, hk2]
  | cons kv rest ih =>
    obtain ⟨k1, v1⟩ := kv
    by_cases hk : k1 = k
    · subst hk
      by_cases hk2 : k1 = k' <;> simp [mapSet, mapHas, hk2]
    · simp only [mapSet, hk, if_false, mapHas, ih]
      cases hb1 : k1 == k' <;> cases hb2 : k == k' <;>
        cases hb3 : mapHas rest k' <;> rfl

theorem mapKeysOk_mapSet (m : VMap) (k : String) (v : GoValue)
    (h : mapKeysOk m = true) : mapKeysOk (mapSet m k v) = true := by
  induction m with
  | nil => simp [mapSet, mapKeysOk, mapHas]
  | cons kv rest ih =>
    simp [mapKeysOk] at h
    by_cases hk : kv.1 = k
    · simp [mapSet, hk, mapKeysOk]
      exact ⟨hk ▸ h.1, h.2⟩
    · simp [mapSet, hk, mapKeysOk, mapHas_mapSet]
      refine ⟨⟨fun he => hk he.symm, h.1⟩, ih h.2⟩

theorem smapGet_smapSet_self (m : SMap) (k v : String) :
    smapGet (smapSet m k v) k = some v := by
  induction m with
  | nil => simp [smapSet, smapGet]
  | cons kv rest ih =>
    by_cases h : kv.1 = k
    · simp [smapSet, h, smapGet]
    · simp [smapSet, h, smapGet, ih]

/-! ## Lemmas about the map-copying folds of `buildCustomPayload` -/

theorem copyfold_get_of_not_has (l : VMap) (init : VMap) (k : String)
    (h : mapHas l k = false) :
    mapGet (l.foldl (fun m kv => mapSet m kv.1 kv.2) init) k = mapGet init k := by
  induction l generalizing init with
  | nil => rfl
  | cons kv rest ih =>
    simp [mapHas] at h
    simp only [List.foldl_cons]
    rw [ih _ h.2, mapGet_mapSet_ne _ _ _ _ h.1]

theorem copyfold_get (l : VMap) (init : VMap) (k : String) (w : GoValue)
    (hok : mapKeysOk l = true) (hhas : mapHas l k = true) (hget : mapGet l k = w) :
    mapGet (l.foldl (fun m kv => mapSet m kv.1 kv.2) init) k = w := by
  induction l generalizing init with
  | nil => simp [mapHas] at hhas
  | cons kv rest ih =>
    obtain ⟨k1, v1⟩ := kv
    simp only [mapKeysOk, Bool.and_eq_true, Bool.not_eq_true'] at hok
    by_cases hk : k1 = k
    · subst hk
      simp [mapGet] at hget
      simp only [List.foldl_cons]
      rw [copyfold_get_of_not_has rest _ k1 hok.1, mapGet_mapSet_self]
      exact hget
    · simp [mapGet, hk] at hget
      simp [mapHas, hk] at hhas
      simp only [List.foldl_cons]
      exact ih _ hok.2 hhas hget

theorem copyfold_keysOk (l : VMap) (init : VMap)
    (h : mapKeysOk init = true) :
    mapKeysOk (l.foldl (fun m kv => mapSet m kv.1 kv.2) init) = true := by
  induction l generalizing init with
  | nil => exact h
  | cons kv rest ih =>
    simp only [List.foldl_cons]
    exact ih _ (mapKeysOk_mapSet _ _ _ h)

theorem strfold_get_of_not_has (l : SMap) (init : VMap) (k : String)
    (h : smapHas l k = false) :
    mapGet (l.foldl (fun m kv => mapSet m kv.1 (.str kv.2)) init) k = mapGet init k := by
  induction l generalizing init with
  | nil => rfl
  | cons kv rest ih =>
    simp [smapHas] at h
    simp only [List.foldl_cons]
    rw [ih _ h.2, mapGet_mapSet_ne _ _ _ _ h.1]

theorem strfold_get (l : SMap) (init : VMap) (k v : String)
    (hok : smapKeysOk l = true) (hget : smapGet l k = some v) :
    mapGet (l.foldl (fun m kv => mapSet m kv.1 (.str kv.2)) init) k = .str v := by
  induction l generalizing init with
  | nil => simp [smapGet] at hget
  | cons kv rest ih =>
    obtain ⟨k1, v1⟩ := kv
    simp only [smapKeysOk, Bool.and_eq_true, Bool.not_eq_true'] at hok
    by_cases hk : k1 = k
    · subst hk
      simp [smapGet] at hget
      simp only [List.foldl_cons]
      rw [strfold_get_of_not_has rest _ k1 hok.1, mapGet_mapSet_self]
      rw [hget]
    · simp [smapGet, hk] at hget
      simp only [List.foldl_cons]
      exact ih _ hok.2 hget

theorem strfold_keysOk (l : SMap) (init : VMap)
    (h : mapKeysOk init = true) :
    mapKeysOk (l.foldl (fun m kv => mapSet m kv.1 (.str kv.2)) init) = true := by
  induction l generalizing init with
  | nil => exact h
  | cons kv rest ih =>
    simp only [List.foldl_cons]
    exact ih _ (mapKeysOk_mapSet _ _ _ h)

theorem condfold_get_of_not_has (tpl : String) (l : VMap) (init : VMap) (k : String)
    (h : mapHas l k = false) :
    mapGet (l.foldl
      (fun r kv => if customFieldCond tpl kv.1 then mapSet r kv.1 kv.2 else r) init) k
      = mapGet init k := by
  induction l generalizing init with
  | nil => rfl
  | cons kv rest ih =>
    simp [mapHas] at h
    simp only [List.foldl_cons]
    by_cases hc : customFieldCond tpl kv.1 = true
    · rw [ih _ h.2, if_pos hc, mapGet_mapSet_ne _ _ _ _ h.1]
    · rw [if_neg hc]
      exact ih _ h.2

theorem condfold_get_of_cond_false (tpl : String) (l : VMap) (init : VMap) (k : String)
    (hc : customFieldCond tpl k = false) :
    mapGet (l.foldl
      (fun r kv => if customFieldCond tpl kv.1 then mapSet r kv.1 kv.2 else r) init) k
      = mapGet init k := by
  induction l generalizing init with
  | nil => rfl
  | cons kv rest ih =>
    simp only [List.foldl_cons]
    by_cases hk : kv.1 = k
    · have hcf : ¬customFieldCond tpl kv.1 = true := by
        rw [hk, hc]
        simp
      rw [if_neg hcf]
      exact ih _
    · by_cases hc2 : customFieldCond tpl kv.1 = true
      · rw [if_pos hc2, ih _, mapGet_mapSet_ne _ _ _ _ hk]
      · rw [if_neg hc2]
        exact ih _

theorem condfold_has_of_cond_false (tpl : String) (l : VMap) (init : VMap) (k : String)
    (hc : customFieldCond tpl k = false) :
    mapHas (l.foldl
      (fun r kv => if customFieldCond tpl kv.1 then mapSet r kv.1 kv.2 else r) init) k
      = mapHas init k := by
  induction l generalizing init with
  | nil => rfl
  | cons kv rest ih =>
    simp only [List.foldl_cons]
    by_cases hk : kv.1 = k
    · have hcf : ¬customFieldCond tpl kv.1 = true := by
        rw [hk, hc]
        simp
      rw [if_neg hcf]
      exact ih _
    · by_cases hc2 : customFieldCond tpl kv.1 = true
      · rw [if_pos hc2, ih _, mapHas_mapSet_ne _ _ _ _ hk]
      · rw [if_neg hc2]
        exact ih _

theorem condfold_get (tpl : String) (l : VMap) (init : VMap) (k : String) (w : GoValue)
    (hok : mapKeysOk l = true) (hhas : mapHas l k = true) (hget : mapGet l k = w)
    (hc : customFieldCond tpl k = true) :
    mapGet (l.foldl
      (fun r kv => if customFieldCond tpl kv.1 then mapSet r kv.1 kv.2 else r) init) k
      = w := by
  induction l generalizing init with
  | nil => simp [mapHas] at hhas
  | cons kv rest ih =>
    obtain ⟨k1, v1⟩ := kv
    simp only [mapKeysOk, Bool.and_eq_true, Bool.not_eq_true'] at hok
    by_cases hk : k1 = k
    · subst hk
      simp [mapGet] at hget
      simp only [List.foldl_cons]
      rw [if_pos hc, condfold_get_of_not_has tpl rest _ k1 hok.1, mapGet_mapSet_self]
      exact hget
    · simp [mapGet, hk] at hget
      simp [mapHas, hk] at hhas
      simp only [List.foldl_cons]
      exact ih _ hok.2 hhas hget



/-! ## Claim C1: payload construction precedence -/

/-- Claim C1: for every webhook configuration and every title/message
pair, `buildPayload` selects the payload construction strategy by the
fixed precedence: a present custom-payload configuration is used first;
otherwise a non-empty raw template string; otherwise a non-empty named
preset format; otherwise the default JSON object is produced. -/
theorem buildPayload_precedence
    (render : String → VMap → Except String String)
    (junm : String → Option GoValue) (σ : Store) (cfg : WebhookConfig)
    (title message now : String) (nowUnix : Int) :
    (∀ cp, cfg.CustomPayload = some cp →
      buildPayload render junm σ cfg title message now nowUnix =
        buildCustomPayload render junm σ cp (payloadData title message now)) ∧
    (cfg.CustomPayload = none → cfg.Template ≠ "" →
      buildPayload render junm σ cfg title message now nowUnix =
        buildTemplatePayload render junm cfg (payloadData title message now)) ∧
    (cfg.CustomPayload = none → cfg.Template = "" → cfg.Format ≠ "" →
      buildPayload render junm σ cfg title message now nowUnix =
        .ok (buildFormattedPayload cfg (payloadData title message now) nowUnix)) ∧
    (cfg.CustomPayload = none → cfg.Template = "" → cfg.Format = "" →
      buildPayload render junm σ cfg title message now nowUnix =
        .ok (.obj (payloadData title message now), "application/json")) := by
  refine ⟨?_, ?_, ?_, ?_⟩
  · intro cp hcp
    simp [buildPayload, hcp]
  · intro hcp ht
    simp [buildPayload, hcp, ht]
  · intro hcp ht hf
    simp [buildPayload, hcp, ht, hf]
  · intro hcp ht hf
    simp [buildPayload, hcp, ht, hf]

/-- Witness for C1 at a configuration with no custom payload, no
template and no format: the default JSON object branch fires. -/
theorem buildPayload_precedence_witness :
    buildPayload renderUnused junmFail [] ({} : WebhookConfig) "t" "m" "now" 0 =
      .ok (.obj (payloadData "t" "m" "now"), "application/json") :=
  (buildPayload_precedence renderUnused junmFail [] {} "t" "m" "now" 0).2.2.2
    rfl rfl rfl

/-! ## Claim C2: the structured custom template renders exactly -/

/-- Claim C2: with the custom-payload template
`\x7b"alert":"\x7b\x7b.Title\x7d\x7d","details":"\x7b\x7b.Message\x7d\x7d"\x7d`,
title "Service Down" and message "DB failed", the payload built is
exactly the JSON object with the two members `alert` = "Service Down"
and `details` = "DB failed" and no additional keys, and its serialized
body is exactly that two-member JSON text. -/
theorem buildPayload_customTemplate_exact
    (render : String → VMap → Except String String)
    (junm : String → Option GoValue) (now : String) (nowUnix : Int) :
    buildPayload render junm []
        { URL := "https://example.com/hook",
          CustomPayload := some { Template := alertDetailsTemplate } }
        "Service Down" "DB failed" now nowUnix =
      .ok (.obj [("alert", .str "Service Down"), ("details", .str "DB failed")],
        "application/json") ∧
    serializeBody
        (.obj [("alert", .str "Service Down"), ("details", .str "DB failed")]) =
      "\x7b\"alert\":\"Service Down\",\"details\":\"DB failed\"\x7d" :=
  ⟨rfl, by decide⟩

/-! ## Claim C9: missing URL fails before any payload or request -/

/-- Claim C9: when the configured URL is empty and the `WEBHOOK_URL`
environment value is also empty, `Send` returns the error
"webhook URL not configured" — for every renderer, unmarshaller and
server alike, so no payload is built and no attempt reaches the wire,
and the store is untouched. -/
theorem Send_url_not_configured
    (render : String → VMap → Except String String)
    (junm : String → Option GoValue) (b64 : String → String)
    (getenv : String → String) (responses : Nat → Nat × String)
    (σ : Store) (cfg : WebhookConfig) (title message now : String) (nowUnix : Int)
    (hurl : cfg.URL = "") (henv : getenv "WEBHOOK_URL" = "") :
    Send render junm b64 getenv responses σ cfg title message now nowUnix =
      (σ, .error "webhook URL not configured") := by
  simp [Send, hurl, henv]

/-- Witness for C9 at the all-defaults configuration and an empty
environment. -/
theorem Send_url_not_configured_witness :
    ({} : WebhookConfig).URL = "" ∧ getenvEmpty "WEBHOOK_URL" = "" ∧
    Send renderUnused junmFail b64Id getenvEmpty responses200 [] {} "t" "m" "n" 0 =
      ([], .error "webhook URL not configured") :=
  ⟨rfl, rfl,
    Send_url_not_configured renderUnused junmFail b64Id getenvEmpty responses200
      [] {} "t" "m" "n" 0 rfl rfl⟩

/-! ## Claim C10: raw-template output branches on JSON validity -/

/-- Claim C10: for every raw-template configuration, once the template
renders to `out`, `buildTemplatePayload` returns the parsed value with
content type `application/json` when `out` unmarshals as JSON, and the
raw text with content type `text/plain` (unless a content type is
explicitly configured) when it does not. -/
theorem buildTemplatePayload_json_branching
    (render : String → VMap → Except String String)
    (junm : String → Option GoValue) (cfg : WebhookConfig) (data : VMap)
    (out : String) (hr : render cfg.Template data = .ok out) :
    (junm out = none →
      buildTemplatePayload render junm cfg data =
        .ok (.str out,
          if cfg.ContentType ≠ "" then cfg.ContentType else "text/plain")) ∧
    (∀ j, junm out = some j →
      buildTemplatePayload render junm cfg data = .ok (j, "application/json")) := by
  constructor
  · intro hj
    simp [buildTemplatePayload, hr, hj]
  · intro j hj
    simp [buildTemplatePayload, hr, hj]

/-- Witness for C10: an echoing renderer with a non-JSON template yields
the plain-text branch, and with an always-parsing unmarshaller the JSON
branch. -/
theorem buildTemplatePayload_json_branching_witness :
    buildTemplatePayload renderEcho junmFail
        ({ Template := "plain text" } : WebhookConfig) [] =
      .ok (.str "plain text", "text/plain") ∧
    buildTemplatePayload renderEcho junmEmptyObj
        ({ Template := "plain text" } : WebhookConfig) [] =
      .ok (.obj [], "application/json") :=
  ⟨(buildTemplatePayload_json_branching renderEcho junmFail
      { Template := "plain text" } [] "plain text" rfl).1 rfl,
   (buildTemplatePayload_json_branching renderEcho junmEmptyObj
      { Template := "plain text" } [] "plain text" rfl).2 (.obj []) rfl⟩

/-! ## Claim C3: retry classification of the send path -/

theorem httpAttemptLoop_mem (responses : Nat → Nat × String) (req : Attempt)
    (rem attempt : Nat) (a : Attempt)
    (h : a ∈ (httpAttemptLoop responses req attempt rem).1) : a = req := by
  induction rem generalizing attempt with
  | zero =>
    simp only [httpAttemptLoop] at h
    split at h <;> simpa using h
  | succ r ih =>
    simp only [httpAttemptLoop] at h
    split at h
    · simpa using h
    · simp at h
      rcases h with h | h
      · exact h
      · exact ih (attempt + 1) h

theorem httpAttemptLoop_first_ok (responses : Nat → Nat × String) (req : Attempt)
    (attempt rem : Nat)
    (h : 200 ≤ (responses attempt).1 ∧ (responses attempt).1 < 300) :
    httpAttemptLoop responses req attempt rem = ([req], .ok ()) := by
  cases rem <;> simp only [httpAttemptLoop] <;> rw [if_pos h]

theorem httpAttemptLoop_first_success (responses : Nat → Nat × String)
    (req : Attempt) (rem attempt j : Nat) (hj : j ≤ rem)
    (hsucc : 200 ≤ (responses (attempt + j)).1 ∧ (responses (attempt + j)).1 < 300)
    (hbefore : ∀ i, i < j →
      ¬(200 ≤ (responses (attempt + i)).1 ∧ (responses (attempt + i)).1 < 300)) :
    httpAttemptLoop responses req attempt rem =
      (List.replicate (j + 1) req, .ok ()) := by
  induction j generalizing attempt rem with
  | zero =>
    have hs0 : 200 ≤ (responses attempt).1 ∧ (responses attempt).1 < 300 := hsucc
    cases rem <;> simp only [httpAttemptLoop] <;> rw [if_pos hs0] <;> rfl
  | succ n ih =>
    cases rem with
    | zero => exact absurd hj (by omega)
    | succ r =>
      have h0 := hbefore 0 (Nat.succ_pos n)
      simp only [httpAttemptLoop]
      rw [if_neg (by simpa using h0)]
      have hs2 : 200 ≤ (responses (attempt + 1 + n)).1 ∧
          (responses (attempt + 1 + n)).1 < 300 := by
        have harith : attempt + 1 + n = attempt + (n + 1) := by omega
        rw [harith]
        exact hsucc
      have hb2 : ∀ i, i < n →
          ¬(200 ≤ (responses (attempt + 1 + i)).1 ∧
            (responses (attempt + 1 + i)).1 < 300) := by
        intro i hi
        have harith : attempt + 1 + i = attempt + (i + 1) := by omega
        rw [harith]
        exact hbefore (i + 1) (by omega)
      have hrec := ih r (attempt + 1) (Nat.le_of_succ_le_succ hj) hs2 hb2
      rw [hrec]
      rfl

theorem httpAttemptLoop_all_fail (responses : Nat → Nat × String) (req : Attempt)
    (rem attempt : Nat)
    (h : ∀ i, i ≤ rem →
      ¬(200 ≤ (responses (attempt + i)).1 ∧ (responses (attempt + i)).1 < 300)) :
    httpAttemptLoop responses req attempt rem =
      (List.replicate (rem + 1) req,
       .error { StatusCode := (responses (attempt + rem)).1,
                Body := (responses (attempt + rem)).2,
                Retryable := isRetryableStatus (responses (attempt + rem)).1,
                Message := "webhook request failed with status "
                  ++ toString (responses (attempt + rem)).1 }) := by
  induction rem generalizing attempt with
  | zero =>
    have h0 := h 0 (Nat.le_refl 0)
    simp only [httpAttemptLoop]
    rw [if_neg (by simpa using h0)]
    simp
  | succ r ih =>
    have h0 := h 0 (Nat.zero_le _)
    simp only [httpAttemptLoop]
    rw [if_neg (by simpa using h0)]
    have hrec := ih (attempt + 1) (fun i hi => by
      have h2 := h (i + 1) (Nat.succ_le_succ hi)
      have harith : attempt + (i + 1) = attempt + 1 + i := by omega
      rw [harith] at h2
      exact h2)
    rw [hrec]
    have harith : attempt + 1 + r = attempt + (r + 1) := by omega
    rw [harith]
    rfl

/-- Claim C3: in the retrying send path every invocation is covered:
whenever the first 2xx response occurs at attempt `j` within the
configured retry budget (all earlier responses non-2xx), the send is
classified as success with exactly `j + 1` attempts — no further
retries; the serialized payload is identical on every attempt that
reaches the wire; and when every response up to the budget is non-2xx,
the budget is exhausted with `maxRetries + 1` attempts and the last
HTTP status and body surface as a `WebhookError` recording whether the
failure class was retryable.  Every response trace falls under the
first or the last conjunct (either some attempt within the budget is
the first 2xx, or none is).  The retry-count clamping and one-time
serialization are from `sendWithRetry` (webhook.go:364-391); the
attempt loop itself is modelled from the spec
(`sendHTTPRequestWithCustomBody` is not under the provided sources). -/
theorem sendWithRetry_classification
    (responses : Nat → Nat × String) (cfg : WebhookConfig)
    (url method : String) (payload : GoValue) (contentType : String)
    (headers : SMap) :
    (∀ j, j ≤ (if cfg.Retries > 0 then cfg.Retries.toNat else 0) →
      (200 ≤ (responses j).1 ∧ (responses j).1 < 300) →
      (∀ i, i < j → ¬(200 ≤ (responses i).1 ∧ (responses i).1 < 300)) →
      (sendWithRetry responses cfg url method payload contentType headers).2
          = .ok () ∧
      (sendWithRetry responses cfg url method payload contentType headers).1.length
          = j + 1) ∧
    (∀ a ∈ (sendWithRetry responses cfg url method payload contentType headers).1,
      a.body = serializeBody payload) ∧
    ((∀ i, i ≤ (if cfg.Retries > 0 then cfg.Retries.toNat else 0) →
        ¬(200 ≤ (responses i).1 ∧ (responses i).1 < 300)) →
      (sendWithRetry responses cfg url method payload contentType headers).1.length
          = (if cfg.Retries > 0 then cfg.Retries.toNat else 0) + 1 ∧
      (sendWithRetry responses cfg url method payload contentType headers).2 =
        .error (WebhookError.mk
          (responses (if cfg.Retries > 0 then cfg.Retries.toNat else 0)).1
          (responses (if cfg.Retries > 0 then cfg.Retries.toNat else 0)).2
          (isRetryableStatus
            (responses (if cfg.Retries > 0 then cfg.Retries.toNat else 0)).1)
          ("webhook request failed with status " ++
            toString (responses (if cfg.Retries > 0 then cfg.Retries.toNat else 0)).1))) := by
  refine ⟨?_, ?_, ?_⟩
  · intro j hj hsucc hbefore
    have hs : 200 ≤ (responses (0 + j)).1 ∧ (responses (0 + j)).1 < 300 := by
      rw [Nat.zero_add]
      exact hsucc
    have hb : ∀ i, i < j →
        ¬(200 ≤ (responses (0 + i)).1 ∧ (responses (0 + i)).1 < 300) := by
      intro i hi
      rw [Nat.zero_add]
      exact hbefore i hi
    simp only [sendWithRetry, sendHTTPRequestWithCustomBody]
    rw [httpAttemptLoop_first_success responses _ _ _ j hj hs hb]
    exact ⟨rfl, by simp⟩
  · intro a ha
    simp only [sendWithRetry, sendHTTPRequestWithCustomBody] at ha
    have := httpAttemptLoop_mem _ _ _ _ _ ha
    rw [this]
  · intro hfail
    simp only [sendWithRetry, sendHTTPRequestWithCustomBody]
    rw [httpAttemptLoop_all_fail _ _ _ _ (by
      intro i hi
      have := hfail i hi
      simpa using this)]
    constructor
    · simp
    · simp

/-- Witness for C3, at the repository's own retry test scenario: a
server answering 503, 503, 200 against a configuration with 3 retries
succeeds with exactly 3 attempts; and a server that always answers 503
against a configuration with 2 retries makes exactly 3 attempts and
surfaces 503 with its body as a retryable `WebhookError`. -/
theorem sendWithRetry_classification_witness :
    ((sendWithRetry (fun i => if i < 2 then (503, "unavailable") else (200, "OK"))
        ({ Retries := 3 } : WebhookConfig) "u" "POST" (.str "p") "ct" []).2
        = .ok () ∧
      (sendWithRetry (fun i => if i < 2 then (503, "unavailable") else (200, "OK"))
        ({ Retries := 3 } : WebhookConfig) "u" "POST" (.str "p") "ct" []).1.length
        = 3) ∧
    (sendWithRetry (fun _ => (503, "unavailable")) ({ Retries := 2 } : WebhookConfig)
        "u" "POST" (.str "p") "ct" []).1.length = 3 ∧
    (sendWithRetry (fun _ => (503, "unavailable")) ({ Retries := 2 } : WebhookConfig)
        "u" "POST" (.str "p") "ct" []).2 =
      .error { StatusCode := 503, Body := "unavailable", Retryable := true,
               Message := "webhook request failed with status 503" } :=
  ⟨(sendWithRetry_classification
      (fun i => if i < 2 then (503, "unavailable") else (200, "OK"))
      { Retries := 3 } "u" "POST" (.str "p") "ct" []).1 2
      (by decide) (by decide) (by decide),
   ((sendWithRetry_classification (fun _ => (503, "unavailable"))
      { Retries := 2 } "u" "POST" (.str "p") "ct" []).2.2 (by decide)).1,
   ((sendWithRetry_classification (fun _ => (503, "unavailable"))
      { Retries := 2 } "u" "POST" (.str "p") "ct" []).2.2 (by decide)).2⟩


/-! ## Store lemmas -/

theorem readRef_cons_zero (a : SMap) (l : Store) : readRef (a :: l) 0 = a := rfl

theorem readRef_cons_succ (a : SMap) (l : Store) (n : Nat) :
    readRef (a :: l) (n + 1) = readRef l n := rfl

theorem writeRef_length (σ : Store) (r : Nat) (m : SMap) :
    (writeRef σ r m).length = σ.length := by
  simp [writeRef]

theorem readRef_writeRef_self (σ : Store) (r : Nat) (m : SMap) (h : r < σ.length) :
    readRef (writeRef σ r m) r = m := by
  induction σ generalizing r with
  | nil => simp at h
  | cons a as ih =>
    cases r with
    | zero => rfl
    | succ n =>
      have hn : n < as.length := by simpa using h
      show readRef (a :: writeRef as n m) (n + 1) = m
      rw [readRef_cons_succ]
      exact ih n hn

theorem readRef_writeRef_ne (σ : Store) (r r2 : Nat) (m : SMap) (h : r ≠ r2) :
    readRef (writeRef σ r2 m) r = readRef σ r := by
  induction σ generalizing r r2 with
  | nil => rfl
  | cons a as ih =>
    cases r2 with
    | zero =>
      cases r with
      | zero => exact absurd rfl h
      | succ n => rfl
    | succ n2 =>
      cases r with
      | zero => rfl
      | succ n =>
        show readRef (a :: writeRef as n2 m) (n + 1) = readRef (a :: as) (n + 1)
        rw [readRef_cons_succ, readRef_cons_succ]
        exact ih n n2 (fun he => h (by rw [he]))

theorem readRef_append_lt (σ : Store) (m : SMap) (r : Nat) (h : r < σ.length) :
    readRef (σ ++ [m]) r = readRef σ r := by
  induction σ generalizing r with
  | nil => simp at h
  | cons a as ih =>
    cases r with
    | zero => rfl
    | succ n =>
      have hn : n < as.length := by simpa using h
      show readRef (a :: (as ++ [m])) (n + 1) = readRef (a :: as) (n + 1)
      rw [readRef_cons_succ, readRef_cons_succ]
      exact ih n hn

/-! ## Claim C4: the default JSON body -/

/-- Claim C4 (amended): when no custom payload, no template and no
format are configured, the payload is exactly the JSON object with the
six keys `title`, `message`, `Title`, `Message`, `timestamp` and
`service` (value "ponghub") — the capitalised `Title`/`Message`
duplicates, added to the data map for template compatibility
(webhook.go:70-71), leak into the default body alongside the four keys
the claim names. -/
theorem buildPayload_default_keys
    (render : String → VMap → Except String String)
    (junm : String → Option GoValue) (σ : Store) (cfg : WebhookConfig)
    (title message now : String) (nowUnix : Int)
    (h1 : cfg.CustomPayload = none) (h2 : cfg.Template = "")
    (h3 : cfg.Format = "") :
    buildPayload render junm σ cfg title message now nowUnix =
      .ok (.obj [("title", .str title), ("message", .str message),
                 ("Title", .str title), ("Message", .str message),
                 ("timestamp", .str now), ("service", .str "ponghub")],
        "application/json") := by
  simp [buildPayload, payloadData, h1, h2, h3]

/-- Witness for C4's amended statement at a concrete default
configuration. -/
theorem buildPayload_default_keys_witness :
    buildPayload renderUnused junmFail [] ({ URL := "u" } : WebhookConfig)
        "a" "b" "t" 0 =
      .ok (.obj [("title", .str "a"), ("message", .str "b"),
                 ("Title", .str "a"), ("Message", .str "b"),
                 ("timestamp", .str "t"), ("service", .str "ponghub")],
        "application/json") :=
  buildPayload_default_keys renderUnused junmFail [] { URL := "u" }
    "a" "b" "t" 0 rfl rfl rfl

/-- Counterexample to C4 as stated: at a concrete default configuration
the built payload carries the key `Title` (and `Message`), which is not
among the four keys `title`, `message`, `timestamp`, `service`, and the
serialized request body contains the member name `"Title"`. -/
theorem buildPayload_default_keys_counterexample :
    buildPayload renderUnused junmFail []
        ({ URL := "https://example.com" } : WebhookConfig)
        "Service Down" "DB failed" "2025-01-01T00:00:00Z" 0 =
      .ok (.obj [("title", .str "Service Down"), ("message", .str "DB failed"),
                 ("Title", .str "Service Down"), ("Message", .str "DB failed"),
                 ("timestamp", .str "2025-01-01T00:00:00Z"),
                 ("service", .str "ponghub")],
        "application/json") ∧
    mapHas [("title", .str "Service Down"), ("message", .str "DB failed"),
            ("Title", .str "Service Down"), ("Message", .str "DB failed"),
            ("timestamp", .str "2025-01-01T00:00:00Z"),
            ("service", .str "ponghub")] "Title" = true ∧
    "Title" ∉ (["title", "message", "timestamp", "service"] : List String) ∧
    strContains (serializeBody (.obj
      [("title", .str "Service Down"), ("message", .str "DB failed"),
       ("Title", .str "Service Down"), ("Message", .str "DB failed"),
       ("timestamp", .str "2025-01-01T00:00:00Z"),
       ("service", .str "ponghub")])) "\"Title\"" = true ∧
    strContains (((sentAttempts (Send renderUnused junmFail b64Id getenvEmpty
      responses200 [[]] ({ URL := "https://example.com" } : WebhookConfig)
      "Service Down" "DB failed" "2025-01-01T00:00:00Z" 0)).headD
      default).body) "\"Title\"" = true :=
  ⟨rfl, rfl, by decide, by decide, by decide⟩

/-! ## Claim C7: the request method -/

/-- Claim C7 (amended): the HTTP method of every attempt `Send` puts on
the wire is POST when the configured method is the empty string, and
otherwise the upper-cased configured method (webhook.go:45-48 applies
`strings.ToUpper`). -/
theorem Send_method_upper
    (render : String → VMap → Except String String)
    (junm : String → Option GoValue) (b64 : String → String)
    (getenv : String → String) (responses : Nat → Nat × String)
    (σ : Store) (cfg : WebhookConfig) (title message now : String) (nowUnix : Int) :
    ∀ a ∈ sentAttempts
      (Send render junm b64 getenv responses σ cfg title message now nowUnix),
      a.method = (if cfg.Method = "" then "POST" else goToUpper cfg.Method) := by
  intro a ha
  simp only [Send] at ha
  by_cases hu : (if cfg.URL = "" then getenv "WEBHOOK_URL" else cfg.URL) = ""
  · rw [if_pos hu] at ha
    simp [sentAttempts] at ha
  · rw [if_neg hu] at ha
    cases hb : buildPayload render junm σ cfg title message now nowUnix with
    | error e =>
      rw [hb] at ha
      simp [sentAttempts] at ha
    | ok pc =>
      obtain ⟨payload, contentType⟩ := pc
      rw [hb] at ha
      simp only [sentAttempts, sendWithRetry, sendHTTPRequestWithCustomBody] at ha
      have hreq := httpAttemptLoop_mem _ _ _ _ _ ha
      rw [hreq]
      by_cases hm : cfg.Method = "" <;> simp [hm]

/-- Witness for C7's amended statement: method "put" goes out as "PUT". -/
theorem Send_method_upper_witness :
    ((sentAttempts (Send renderUnused junmFail b64Id getenvEmpty responses200 [[]]
        ({ URL := "u", Method := "put" } : WebhookConfig) "t" "m" "n" 0)).headD
      default).method = "PUT" :=
  Send_method_upper renderUnused junmFail b64Id getenvEmpty responses200 [[]]
    { URL := "u", Method := "put" } "t" "m" "n" 0 _ (by decide)

/-- Counterexample to C7 as stated: with the configured method "get"
the attempt that reaches the wire uses "GET", which is not the
configured string. -/
theorem Send_method_get_counterexample :
    (sentAttempts (Send renderUnused junmFail b64Id getenvEmpty responses200 [[]]
        ({ URL := "u", Method := "get" } : WebhookConfig) "t" "m" "n" 0)).map
      Attempt.method = ["GET"] ∧ ("GET" : String) ≠ "get" :=
  ⟨rfl, by decide⟩


/-! ## Claim C5: bearer authentication header -/

theorem setAuthentication_bearer (b64 : String → String) (cfg : WebhookConfig)
    (headers : SMap) (hat : cfg.AuthType = "bearer")
    (htok : cfg.AuthToken ≠ "") :
    setAuthentication b64 cfg headers =
      smapSet headers "Authorization" ("Bearer " ++ cfg.AuthToken) := by
  unfold setAuthentication
  rw [hat]
  rw [if_pos (show goToLower "bearer" = "bearer" from rfl), if_pos htok]

/-- Claim C5: with authentication type "bearer" and a non-empty token,
every attempt `Send` puts on the wire carries the header
`Authorization: Bearer <token>`. -/
theorem Send_bearer_authorization
    (render : String → VMap → Except String String)
    (junm : String → Option GoValue) (b64 : String → String)
    (getenv : String → String) (responses : Nat → Nat × String)
    (σ : Store) (cfg : WebhookConfig) (title message now : String) (nowUnix : Int)
    (hat : cfg.AuthType = "bearer") (htok : cfg.AuthToken ≠ "") :
    ∀ a ∈ sentAttempts
      (Send render junm b64 getenv responses σ cfg title message now nowUnix),
      smapGet a.headers "Authorization" = some ("Bearer " ++ cfg.AuthToken) := by
  intro a ha
  simp only [Send] at ha
  by_cases hu : (if cfg.URL = "" then getenv "WEBHOOK_URL" else cfg.URL) = ""
  · rw [if_pos hu] at ha
    simp [sentAttempts] at ha
  · rw [if_neg hu] at ha
    cases hb : buildPayload render junm σ cfg title message now nowUnix with
    | error e =>
      rw [hb] at ha
      simp [sentAttempts] at ha
    | ok pc =>
      obtain ⟨payload, contentType⟩ := pc
      rw [hb] at ha
      simp only [sentAttempts, sendWithRetry, sendHTTPRequestWithCustomBody] at ha
      have hreq := httpAttemptLoop_mem _ _ _ _ _ ha
      rw [hreq]
      have hne : ¬(cfg.AuthType = "") := by
        rw [hat]
        decide
      dsimp only [alloc]
      rw [if_pos hne]
      rw [readRef_writeRef_self _ _ _ (by simp [writeRef])]
      rw [setAuthentication_bearer b64 cfg _ hat htok, smapGet_smapSet_self]

/-- Witness for C5 at a concrete bearer configuration. -/
theorem Send_bearer_authorization_witness :
    smapGet (((sentAttempts (Send renderUnused junmFail b64Id getenvEmpty
        responses200 [[]]
        ({ URL := "u", AuthType := "bearer", AuthToken := "tok" } : WebhookConfig)
        "t" "m" "n" 0)).headD default).headers) "Authorization" =
      some ("Bearer " ++ "tok") :=
  Send_bearer_authorization renderUnused junmFail b64Id getenvEmpty responses200
    [[]] { URL := "u", AuthType := "bearer", AuthToken := "tok" } "t" "m" "n" 0
    rfl (by decide) _ (by decide)

/-! ## Claim C8: `Send` never writes through the configuration -/

/-- Claim C8: `Send` never mutates the configuration it was constructed
with: every `map[string]string` reference allocated before the call —
in particular the configuration's `Headers` map and any custom `Fields`
map — holds the same value after `Send` returns, for every input; the
only map `Send` (and `setAuthentication` on its behalf) writes is the
fresh copy it allocates itself, so concurrent `Send` calls on one
instance share no mutable state.  The remaining configuration fields
are Go values, and no statement of `Send` assigns to them. -/
theorem Send_preserves_config_store
    (render : String → VMap → Except String String)
    (junm : String → Option GoValue) (b64 : String → String)
    (getenv : String → String) (responses : Nat → Nat × String)
    (σ : Store) (cfg : WebhookConfig) (title message now : String) (nowUnix : Int)
    (r : Nat) (h : r < σ.length) :
    readRef (Send render junm b64 getenv responses σ cfg title message now
      nowUnix).1 r = readRef σ r := by
  simp only [Send]
  by_cases hu : (if cfg.URL = "" then getenv "WEBHOOK_URL" else cfg.URL) = ""
  · rw [if_pos hu]
  · rw [if_neg hu]
    cases hb : buildPayload render junm σ cfg title message now nowUnix with
    | error e => rfl
    | ok pc =>
      obtain ⟨payload, contentType⟩ := pc
      have hne : r ≠ σ.length := Nat.ne_of_lt h
      dsimp only [alloc]
      by_cases hAt : cfg.AuthType = ""
      · rw [if_neg (show ¬(cfg.AuthType ≠ "") by simp [hAt])]
        rw [readRef_writeRef_ne _ _ _ _ hne, readRef_append_lt _ _ _ h]
      · rw [if_pos (show cfg.AuthType ≠ "" from hAt)]
        rw [readRef_writeRef_ne _ _ _ _ hne, readRef_writeRef_ne _ _ _ _ hne,
          readRef_append_lt _ _ _ h]

/-- Witness for C8: a store holding one headers map is unchanged by a
`Send` that injects a bearer header. -/
theorem Send_preserves_config_store_witness :
    0 < ([[("k", "v")]] : Store).length ∧
    readRef (Send renderUnused junmFail b64Id getenvEmpty responses200
        [[("k", "v")]]
        ({ URL := "u", HeadersRef := 0, AuthType := "bearer",
           AuthToken := "tok" } : WebhookConfig) "t" "m" "n" 0).1 0 =
      readRef [[("k", "v")]] 0 :=
  ⟨by decide,
   Send_preserves_config_store renderUnused junmFail b64Id getenvEmpty
     responses200 [[("k", "v")]]
     { URL := "u", HeadersRef := 0, AuthType := "bearer", AuthToken := "tok" }
     "t" "m" "n" 0 0 (by decide)⟩


/-! ## Claim C6: declared custom fields and the transmitted payload -/

theorem mapKeysOk_setIte (c : Prop) [Decidable c] (m : VMap) (k : String)
    (v : GoValue) (hm : mapKeysOk m = true) :
    mapKeysOk (if c then mapSet m k v else m) = true := by
  split
  · exact mapKeysOk_mapSet _ _ _ hm
  · exact hm

theorem enhancedDataOf_keysOk (σ : Store) (cp : CustomPayloadConfig)
    (data : VMap) : mapKeysOk (enhancedDataOf σ cp data) = true := by
  unfold enhancedDataOf enhancedMessageMap enhancedTitleMap enhancedFields
    enhancedCopy
  apply mapKeysOk_setIte
  apply mapKeysOk_setIte
  split
  · exact strfold_keysOk _ _ (copyfold_keysOk _ _ rfl)
  · exact copyfold_keysOk _ _ rfl

theorem enhancedDataOf_get (σ : Store) (cp : CustomPayloadConfig) (data : VMap)
    (k v : String) (hf : cp.FieldsSome = true)
    (hok : smapKeysOk (readRef σ cp.FieldsRef) = true)
    (hget : smapGet (readRef σ cp.FieldsRef) k = some v)
    (htf : k ≠ cp.TitleField) (hmf : k ≠ cp.MessageField) :
    mapGet (enhancedDataOf σ cp data) k = .str v := by
  unfold enhancedDataOf enhancedMessageMap enhancedTitleMap enhancedFields
  rw [hf, if_pos rfl]
  split
  · rw [mapGet_mapSet_ne _ _ _ _ (Ne.symm hmf)]
    split
    · rw [mapGet_mapSet_ne _ _ _ _ (Ne.symm htf)]
      exact strfold_get _ _ _ _ hok hget
    · exact strfold_get _ _ _ _ hok hget
  · split
    · rw [mapGet_mapSet_ne _ _ _ _ (Ne.symm htf)]
      exact strfold_get _ _ _ _ hok hget
    · exact strfold_get _ _ _ _ hok hget

theorem structuredCustomResult_get_of_cond (tpl : String) (enhanced : VMap)
    (k : String) (w : GoValue) (hok : mapKeysOk enhanced = true)
    (hhas : mapHas enhanced k = true) (hget : mapGet enhanced k = w)
    (hc : customFieldCond tpl k = true) :
    mapGet (structuredCustomResult tpl enhanced) k = w := by
  unfold structuredCustomResult
  exact condfold_get tpl enhanced _ k w hok hhas hget hc

theorem structuredCustomResult_has_of_not_cond (tpl : String) (enhanced : VMap)
    (k : String) (hc : customFieldCond tpl k = false)
    (h1 : k ≠ "alert") (h2 : k ≠ "details") (h3 : k ≠ "env") (h4 : k ≠ "svc") :
    mapHas (structuredCustomResult tpl enhanced) k = false := by
  unfold structuredCustomResult
  rw [condfold_has_of_cond_false _ _ _ _ hc]
  split
  · rw [mapHas_mapSet_ne _ _ _ _ (Ne.symm h4)]
    split
    · rw [mapHas_mapSet_ne _ _ _ _ (Ne.symm h3)]
      simp [mapHas, beq_iff_eq, Ne.symm h1, Ne.symm h2]
    · simp [mapHas, beq_iff_eq, Ne.symm h1, Ne.symm h2]
  · split
    · rw [mapHas_mapSet_ne _ _ _ _ (Ne.symm h3)]
      simp [mapHas, beq_iff_eq, Ne.symm h1, Ne.symm h2]
    · simp [mapHas, beq_iff_eq, Ne.symm h1, Ne.symm h2]

theorem buildCustomPayload_no_template
    (render : String → VMap → Except String String)
    (junm : String → Option GoValue) (σ : Store) (cp : CustomPayloadConfig)
    (data : VMap) (h : cp.Template = "") :
    buildCustomPayload render junm σ cp data =
      .ok (.obj (enhancedDataOf σ cp data),
        if cp.ContentType ≠ "" then cp.ContentType else "application/json") := by
  simp [buildCustomPayload, h]

theorem buildCustomPayload_structured
    (render : String → VMap → Except String String)
    (junm : String → Option GoValue) (σ : Store) (cp : CustomPayloadConfig)
    (data : VMap) (h1 : cp.Template ≠ "")
    (h2 : strContains cp.Template "\"alert\"" = true)
    (h3 : strContains cp.Template "\"details\"" = true) :
    buildCustomPayload render junm σ cp data =
      .ok (.obj (structuredCustomResult cp.Template (enhancedDataOf σ cp data)),
        if cp.ContentType ≠ "" then cp.ContentType else "application/json") := by
  simp [buildCustomPayload, h1, h2, h3]

/-- Claim C6 (amended): every declared custom field (keyed distinctly,
and not shadowed by the title/message field-name mappings) is merged
into the intermediate `enhancedData` map; in the no-template
custom-payload branch the transmitted payload is exactly that map, so
every declared field is sent; but in the structured-template branch a
declared non-reserved field is transmitted exactly when its quoted name
occurs in the template text (`customFieldCond`), so a declared field
whose name the template does not mention in quotes is dropped. -/
theorem buildCustomPayload_fields_projection
    (render : String → VMap → Except String String)
    (junm : String → Option GoValue) (σ : Store) (cp : CustomPayloadConfig)
    (data : VMap) (k v : String) (hf : cp.FieldsSome = true)
    (hok : smapKeysOk (readRef σ cp.FieldsRef) = true)
    (hget : smapGet (readRef σ cp.FieldsRef) k = some v)
    (htf : k ≠ cp.TitleField) (hmf : k ≠ cp.MessageField) :
    mapGet (enhancedDataOf σ cp data) k = .str v ∧
    (cp.Template = "" →
      buildCustomPayload render junm σ cp data =
        .ok (.obj (enhancedDataOf σ cp data),
          if cp.ContentType ≠ "" then cp.ContentType else "application/json")) ∧
    (cp.Template ≠ "" → strContains cp.Template "\"alert\"" = true →
      strContains cp.Template "\"details\"" = true →
      buildCustomPayload render junm σ cp data =
        .ok (.obj (structuredCustomResult cp.Template (enhancedDataOf σ cp data)),
          if cp.ContentType ≠ "" then cp.ContentType else "application/json") ∧
      (customFieldCond cp.Template k = true →
        mapGet (structuredCustomResult cp.Template (enhancedDataOf σ cp data)) k
          = .str v) ∧
      (customFieldCond cp.Template k = false → k ≠ "alert" → k ≠ "details" →
        k ≠ "env" → k ≠ "svc" →
        mapHas (structuredCustomResult cp.Template (enhancedDataOf σ cp data)) k
          = false)) := by
  have hgetE := enhancedDataOf_get σ cp data k v hf hok hget htf hmf
  refine ⟨hgetE, ?_, ?_⟩
  · intro h
    exact buildCustomPayload_no_template render junm σ cp data h
  · intro h1 h2 h3
    refine ⟨buildCustomPayload_structured render junm σ cp data h1 h2 h3, ?_, ?_⟩
    · intro hc
      exact structuredCustomResult_get_of_cond cp.Template _ k (.str v)
        (enhancedDataOf_keysOk σ cp data)
        (mapHas_of_mapGet_str _ _ _ hgetE) hgetE hc
    · intro hc h4 h5 h6 h7
      exact structuredCustomResult_has_of_not_cond cp.Template _ k hc h4 h5 h6 h7

/-- Witness for C6's amended statement: field `foo` = "bar" shows up in
the enhanced data, and in the structured result of a template that
mentions `"foo"`. -/
theorem buildCustomPayload_fields_projection_witness :
    mapGet (enhancedDataOf [[("foo", "bar")]]
        ({ Template := alertDetailsFooTemplate, FieldsSome := true,
           FieldsRef := 0 } : CustomPayloadConfig)
        (payloadData "t" "m" "n")) "foo" = .str "bar" ∧
    mapGet (structuredCustomResult alertDetailsFooTemplate
        (enhancedDataOf [[("foo", "bar")]]
          ({ Template := alertDetailsFooTemplate, FieldsSome := true,
             FieldsRef := 0 } : CustomPayloadConfig)
          (payloadData "t" "m" "n"))) "foo" = .str "bar" :=
  ⟨(buildCustomPayload_fields_projection renderUnused junmFail [[("foo", "bar")]]
      { Template := alertDetailsFooTemplate, FieldsSome := true, FieldsRef := 0 }
      (payloadData "t" "m" "n") "foo" "bar" rfl (by decide) (by decide)
      (by decide) (by decide)).1,
   ((buildCustomPayload_fields_projection renderUnused junmFail
      [[("foo", "bar")]]
      { Template := alertDetailsFooTemplate, FieldsSome := true, FieldsRef := 0 }
      (payloadData "t" "m" "n") "foo" "bar" rfl (by decide) (by decide)
      (by decide) (by decide)).2.2 (by decide) (by decide) (by decide)).2.1
      (by decide)⟩

/-- Counterexample to C6 as stated: the declared field `foo` = "bar" is
not merged into the payload that is transmitted when the structured
custom template does not mention `"foo"`: the built payload is exactly
the two-member alert/details object. -/
theorem buildCustomPayload_field_dropped_counterexample :
    buildCustomPayload renderUnused junmFail [[("foo", "bar")]]
        ({ Template := alertDetailsTemplate, FieldsSome := true,
           FieldsRef := 0 } : CustomPayloadConfig)
        (payloadData "t" "m" "n") =
      .ok (.obj [("alert", .str "t"), ("details", .str "m")],
        "application/json") ∧
    smapGet (readRef [[("foo", "bar")]] 0) "foo" = some "bar" ∧
    mapHas [("alert", .str "t"), ("details", .str "m")] "foo" = false ∧
    strContains (((sentAttempts (Send renderUnused junmFail b64Id getenvEmpty
      responses200 [[("foo", "bar")]]
      ({ URL := "u",
         CustomPayload := some { Template := alertDetailsTemplate, FieldsSome := true, FieldsRef := 0 } } : WebhookConfig)
      "t" "m" "n" 0)).headD default).body) "\"foo\"" = false :=
  ⟨rfl, rfl, rfl, by decide⟩

end Ponghub
